import Mathlib

/-!
Verification development for the `hk` command-line client core:
credential store (src/hkclient/creds.go), app-context resolution and
command dispatch (src/main.go).

Go code is shallowly embedded: pointer-mutating operations on the netrc
machine list become pure list transformations, and the file-system side
effects of the credential mutations become explicit operation traces.
-/

namespace Hk

/-! ## Credential store (src/hkclient/creds.go)

A netrc credential record. Modelled from the spec: the `Machine` type
lives in the vendored go-netrc library, not under src; per spec section 3
a record is a tuple (host, login, password, optional account token), and a
default/wildcard record is one with no host restriction (empty name). -/
structure Machine where
  name : String
  login : String
  password : String
  account : String
deriving DecidableEq, Repr

/-- `Machine.IsDefault` from the netrc library: the default record has no
host name. -/
def Machine.isDefault (m : Machine) : Bool := m.name = ""

/-- Modelled from the spec: `Netrc.FindMachine` of the go-netrc library is
not under src; per spec section 4.1 lookup is exact host match first, and
per section 3 the default placeholder record matches any host otherwise. -/
def findMachine (ms : List Machine) (host : String) : Option Machine :=
  match ms.find? (fun m => m.name == host) with
  | some m => some m
  | none => ms.find? (fun m => m.isDefault)

/-- In-place update of the first record whose name is `host` (the Go code
mutates the found `*Machine` through `UpdateLogin` / `UpdatePassword`). -/
def updateFirstMachine (ms : List Machine) (host user pass : String) : List Machine :=
  match ms with
  | [] => []
  | m :: rest =>
    if m.name == host then { m with login := user, password := pass } :: rest
    else m :: updateFirstMachine rest host user pass

/-- `SaveCreds` (creds.go lines 52-58) as a transformation of the machine
list: `FindMachine`; if nil or default, `NewMachine` appends a fresh record
(go-netrc appends at the end); `UpdateLogin`/`UpdatePassword` then set the
login and password of the found or created record. -/
def saveCredsList (ms : List Machine) (host user pass : String) : List Machine :=
  match findMachine ms host with
  | none => ms ++ [{ name := host, login := user, password := pass, account := "" }]
  | some m =>
    if m.isDefault then ms ++ [{ name := host, login := user, password := pass, account := "" }]
    else updateFirstMachine ms host user pass

/-- `RemoveCreds` (creds.go lines 67-68) via `Netrc.RemoveMachine`: the
first record with the given name is removed. -/
def removeCredsList (ms : List Machine) (host : String) : List Machine :=
  match ms with
  | [] => []
  | m :: rest => if m.name == host then rest else m :: removeCredsList rest host

/-- Modelled from the spec: `Netrc.MarshalText` of the go-netrc library is
not under src; per spec section 6 each record is serialized as a
`machine <host>` introduction followed by `login` and `password` tokens. -/
def serializeMachine (m : Machine) : String :=
  (if m.name == "" then "default" else "machine " ++ m.name)
    ++ "\n\tlogin " ++ m.login ++ "\n\tpassword " ++ m.password ++ "\n"

/-- Serialization of the whole store, record order preserved. -/
def serializeMachines (ms : List Machine) : String :=
  String.join (ms.map serializeMachine)

/-- `netRcPath` (creds.go lines 16-22): the NETRC_PATH environment variable
when non-empty, else the netrc file inside the home directory.
`homePath` and `netrcFilename` live outside src and are passed in. -/
def netRcPath (envNetrcPath home netrcFilename : String) : String :=
  if envNetrcPath ≠ "" then envNetrcPath else home ++ "/" ++ netrcFilename

/-- A file-system operation performed by the credential store write path. -/
inductive FsOp where
  | writeFile (path : String) (content : String) (perm : Nat)
  | rename (src : String) (dst : String)
deriving DecidableEq, Repr

/-- The file-system operations of `SaveCreds` (creds.go lines 60-64): the
whole store is marshalled and handed to a single `ioutil.WriteFile` call on
the netrc path with mode 0600. -/
def saveCredsOps (envNetrcPath home netrcFilename : String)
    (ms : List Machine) (host user pass : String) : List FsOp :=
  [FsOp.writeFile (netRcPath envNetrcPath home netrcFilename)
    (serializeMachines (saveCredsList ms host user pass)) 0o600]

/-- The file-system operations of `RemoveCreds` (creds.go lines 70-74):
again a single direct `ioutil.WriteFile` on the netrc path with mode 0600. -/
def removeCredsOps (envNetrcPath home netrcFilename : String)
    (ms : List Machine) (host : String) : List FsOp :=
  [FsOp.writeFile (netRcPath envNetrcPath home netrcFilename)
    (serializeMachines (removeCredsList ms host)) 0o600]

/-- The write-to-temp-then-rename pattern the spec requires of every
credential mutation: one write to a temporary path followed by a rename of
that path onto the target. -/
def isTempThenRename (ops : List FsOp) (target : String) : Bool :=
  match ops with
  | [FsOp.writeFile p _ _, FsOp.rename src dst] => p != target && src == p && dst == target
  | _ => false

/-- On-disk content of the target file when a direct write
(`ioutil.WriteFile` opens with O_TRUNC) is interrupted after `k` bytes:
the old content is already gone and only a prefix of the new content is
present. -/
def diskAfterInterruptedWrite (newContent : String) (k : Nat) : String :=
  newContent.take k

/-- Embedded user-info of a URL (`url.Userinfo`): a username and an
optional password (`Password()` reports presence; the Go code discards the
presence flag, so an absent password reads as the empty string). -/
structure UserInfo where
  username : String
  password : Option String
deriving DecidableEq, Repr

/-- The parts of `url.URL` that `GetCreds` consults. -/
structure ApiURL where
  host : String
  user : Option UserInfo
deriving DecidableEq, Repr

/-- `GetCreds` (creds.go lines 33-50). The initial `if err != nil` check of
the source is vestigial dead code (`err` is a freshly zeroed named return)
and has no observable effect, so it is omitted. Empty host is an error;
embedded user-info wins over the store; otherwise `FindMachine`; a nil
result yields empty login and password with a nil error. -/
def getCreds (ms : List Machine) (u : ApiURL) : Except String (String × String) :=
  if u.host == "" then Except.error ("missing API host: " ++ u.host)
  else
    match u.user with
    | some ui => Except.ok (ui.username, ui.password.getD "")
    | none =>
      match findMachine ms u.host with
      | none => Except.ok ("", "")
      | some m => Except.ok (m.login, m.password)

/-! ## App-context resolution and command dispatch (src/main.go) -/

/-- Errors produced by the git-remote inspection helpers (`git.go`, outside
src). `appFromGitRemote` either translates a remote name to an app name or
fails; the sentinel `errMultipleHerokuRemotes` marks ambiguity. -/
inductive GitError where
  | multipleHerokuRemotes
  | other (msg : String)
deriving DecidableEq, Repr

/-- Modelled from the spec: the message of `errMultipleHerokuRemotes` is
declared in `git.go`, which is not under src; spec section 4.3 requires an
explicit multiple-apps message distinct from "no app specified". -/
def GitError.message : GitError → String
  | GitError.multipleHerokuRemotes => "multiple apps in git remotes"
  | GitError.other m => m

/-- A registered command (main.go lines 25-35): `runnable` stands for
`Run != nil`, `needsApp` for `NeedsApp`. Only the descriptor fields the
dispatcher consults are embedded. -/
structure Command where
  usage : String
  runnable : Bool
  needsApp : Bool
deriving DecidableEq, Repr

/-- `Command.Name` (main.go lines 55-62): the usage string up to the first
space (the whole string when it has no space), computed on the character
list. -/
def Command.name (c : Command) : String :=
  String.mk (c.usage.data.takeWhile (fun ch => ch != ' '))

/-- Go `strings.IndexRune(s, '-') == 0` (main.go line 184): whether the
first character of the string is a dash. -/
def startsWithDash (s : String) : Bool :=
  match s.data with
  | [] => false
  | ch :: _ => ch == '-'

/-- The ambient world the dispatcher consults: the HKAPP environment
variable, the git helpers (`remoteFromGitConfig`, `appFromGitRemote`,
outside src), the flag parser of the matched command (Go flag package;
`parse` yields the value bound to `-a` and the positional arguments, or
nothing on a malformed flag), and the plugin search. -/
structure World where
  hkapp : String
  remoteFromGitConfig : String
  appFromGitRemote : String → Except GitError String
  parse : Command → List String → Option (String × List String)
  findPlugin : String → Option String

/-- `app` (main.go lines 253-263): the explicit flag wins, then the HKAPP
environment variable (Go `os.Getenv` yields the empty string when unset),
then the git-remote inspection result. -/
def app (flagApp hkapp : String) (remoteResult : Except GitError String) :
    Except GitError String :=
  if flagApp ≠ "" then Except.ok flagApp
  else if hkapp ≠ "" then Except.ok hkapp
  else remoteResult

/-- Main.go lines 215-219: a non-empty `-a` value is first offered to
`appFromGitRemote`; on success the translated app name replaces it,
otherwise it is kept literally. -/
def translateFlagApp (flagApp : String) (afr : String → Except GitError String) : String :=
  if flagApp ≠ "" then
    match afr flagApp with
    | Except.ok g => g
    | Except.error _ => flagApp
  else flagApp

/-- Observable steps of one `main` invocation, in order. `initClients`
covers credential-store loading and API-client construction (main.go lines
167-177); all API traffic happens inside the invoked handler
(`runCommand`). -/
inductive Event where
  | printTopUsage
  | runUpdate (args : List String)
  | initClients
  | parseFlags (cmd : String)
  | printUsage (cmd : String)
  | printError (msg : String)
  | printFatal (msg : String)
  | resolveApp
  | runCommand (cmd : String) (args : List String)
  | findPluginEv (name : String)
  | execPlugin (path : String) (args : List String)
  | unknownCommand (name : String)
  | exit (code : Nat)
deriving DecidableEq, Repr

/-- The app-context enforcement of main.go lines 220-234, given the
already-translated `-a` value `fa`: an ambiguous result prints the error
message and the usage and exits 2, an empty app prints "no app specified"
and the usage and exits 2, any other error is fatal, and otherwise the
handler runs on the positional arguments. -/
def appContextEvents (c : Command) (w : World) (fa : String) (pos : List String) :
    List Event :=
  match app fa w.hkapp (w.appFromGitRemote w.remoteFromGitConfig) with
  | Except.error GitError.multipleHerokuRemotes =>
    [Event.printError (GitError.message GitError.multipleHerokuRemotes),
     Event.printUsage c.name, Event.exit 2]
  | Except.ok a =>
    if a == "" then
      [Event.printError "no app specified", Event.printUsage c.name, Event.exit 2]
    else [Event.runCommand c.name pos]
  | Except.error (GitError.other m) => [Event.printFatal m]

/-- Steps taken once a registered runnable command matched (main.go lines
205-236): parse the remaining arguments (on error the flag package prints
the command usage and the process exits 2); when the command needs app
context (the only case in which `-a` was registered, so in which the
parsed value can reach the global flag), translate a non-empty `-a` value
and resolve the app context; finally run the handler on the positional
arguments. -/
def dispatchMatched (c : Command) (w : World) (rest : List String) : List Event :=
  Event.parseFlags c.name ::
    match w.parse c rest with
    | none => [Event.printUsage c.name, Event.exit 2]
    | some (v, pos) =>
      if c.needsApp then
        Event.resolveApp ::
          appContextEvents c w (translateFlagApp v w.appFromGitRemote) pos
      else [Event.runCommand c.name pos]

/-- The trace of `main` (main.go lines 179-251): usage error on a missing
or flag-like first argument; the update command short-circuits everything;
otherwise clients are initialized, the registry is scanned for an exact
name match with a non-nil handler, and on a miss the plugin path is tried. -/
def mainTrace (cmds : List Command) (updateName : String) (w : World)
    (args : List String) : List Event :=
  match args with
  | [] => [Event.printTopUsage, Event.exit 2]
  | arg0 :: rest =>
    if startsWithDash arg0 then [Event.printTopUsage, Event.exit 2]
    else if arg0 = updateName then [Event.runUpdate (arg0 :: rest)]
    else
      Event.initClients ::
        match cmds.find? (fun d => d.name == arg0 && d.runnable) with
        | some c => dispatchMatched c w rest
        | none =>
          Event.findPluginEv arg0 ::
            match w.findPlugin arg0 with
            | none => [Event.unknownCommand arg0, Event.exit 2]
            | some p => [Event.execPlugin p (arg0 :: rest)]

/-- An event belonging to plugin resolution or execution. -/
def isPluginEvent : Event → Bool
  | Event.findPluginEv _ => true
  | Event.execPlugin _ _ => true
  | _ => false

/-- Whether a trace ever enters plugin resolution. -/
def reachesPlugin (t : List Event) : Bool := t.any isPluginEvent

/-- Whether a trace performs app-context resolution. -/
def resolvesAppContext (t : List Event) : Bool := t.contains Event.resolveApp

/-- Whether a trace performs flag-schema parsing in the dispatch loop. -/
def parsesFlags (t : List Event) : Bool :=
  t.any fun e => match e with | Event.parseFlags _ => true | _ => false

/-- Whether a trace initializes the API clients (and loads the credential
store). -/
def initsClients (t : List Event) : Bool := t.contains Event.initClients

/-- Whether a trace invokes a command handler (the only place API calls
happen). -/
def invokesHandler (t : List Event) : Bool :=
  t.any fun e => match e with | Event.runCommand _ _ => true | _ => false

/-- The registry entries whose definitions are under src (create.go,
releases.go); the full registry of main.go lines 83-157 also references
commands defined in files outside src. -/
def cmdCreate : Command :=
  { usage := "create [-r <region>] [<name>]", runnable := true, needsApp := false }

/-- `cmdReleases` (releases.go). -/
def cmdReleases : Command :=
  { usage := "releases [<version>...]", runnable := true, needsApp := true }

/-- `cmdReleaseInfo` (releases.go). -/
def cmdReleaseInfo : Command :=
  { usage := "release-info <version>", runnable := true, needsApp := true }

/-- `cmdRollback` (releases.go). -/
def cmdRollback : Command :=
  { usage := "rollback <version>", runnable := true, needsApp := true }

/-- The sub-registry of commands whose definitions are under src. -/
def srcCommands : List Command := [cmdCreate, cmdReleases, cmdReleaseInfo, cmdRollback]

end Hk

namespace Hk

/-! ## Claims C1-C4 -/

/-- C1, counterexample: `SaveCreds` on a concrete store does not follow the
write-temp-then-rename pattern (its operation trace is a single direct
write to the netrc path), and interrupting that direct write after 9 bytes
leaves on disk a file that is neither the complete old version nor the
complete new version. -/
theorem saveCreds_not_atomic_counterexample :
    isTempThenRename
      (saveCredsOps "" "/h" ".netrc"
        [{ name := "api.heroku.com", login := "u", password := "p", account := "" }]
        "api.heroku.com" "u2" "p2")
      (netRcPath "" "/h" ".netrc") = false
    ∧ diskAfterInterruptedWrite
        (serializeMachines (saveCredsList
          [{ name := "api.heroku.com", login := "u", password := "p", account := "" }]
          "api.heroku.com" "u2" "p2")) 9
      ≠ serializeMachines
          [{ name := "api.heroku.com", login := "u", password := "p", account := "" }]
    ∧ diskAfterInterruptedWrite
        (serializeMachines (saveCredsList
          [{ name := "api.heroku.com", login := "u", password := "p", account := "" }]
          "api.heroku.com" "u2" "p2")) 9
      ≠ serializeMachines (saveCredsList
          [{ name := "api.heroku.com", login := "u", password := "p", account := "" }]
          "api.heroku.com" "u2" "p2") := by
  refine ⟨rfl, ?_, ?_⟩ <;> decide

/-- C1 as amended: every credential-store mutation (`SaveCreds` and
`RemoveCreds`) rewrites the entire file with one single direct
`WriteFile` on the netrc path with owner-only mode 0600; no temporary file
and no rename are involved, so the write is not atomic. -/
theorem creds_write_direct (envNetrcPath home netrcFilename : String)
    (ms : List Machine) (host user pass : String) :
    saveCredsOps envNetrcPath home netrcFilename ms host user pass
      = [FsOp.writeFile (netRcPath envNetrcPath home netrcFilename)
          (serializeMachines (saveCredsList ms host user pass)) 0o600]
    ∧ removeCredsOps envNetrcPath home netrcFilename ms host
      = [FsOp.writeFile (netRcPath envNetrcPath home netrcFilename)
          (serializeMachines (removeCredsList ms host)) 0o600]
    ∧ isTempThenRename (saveCredsOps envNetrcPath home netrcFilename ms host user pass)
        (netRcPath envNetrcPath home netrcFilename) = false
    ∧ isTempThenRename (removeCredsOps envNetrcPath home netrcFilename ms host)
        (netRcPath envNetrcPath home netrcFilename) = false :=
  ⟨rfl, rfl, rfl, rfl⟩

/-- Helper: when no record in the store carries the given host name,
`findMachine` can only return a default record or nothing. -/
theorem findMachine_no_concrete (ms : List Machine) (host : String)
    (hno : ms.all (fun m => !(m.name == host)) = true) :
    findMachine ms host = ms.find? (fun m => m.isDefault) := by
  unfold findMachine
  have hfind : ms.find? (fun m => m.name == host) = none := by
    rw [List.find?_eq_none]
    intro m hm
    have := (List.all_eq_true.mp hno) m hm
    simpa using this
  rw [hfind]

/-- C2: upserting a host that has no concrete record appends a fresh
concrete record with the given login and password at the end of the store;
every record present before the call, a default/wildcard record included,
is left in place unchanged (the default is never mutated). -/
theorem saveCreds_appends_fresh_record (ms : List Machine) (host user pass : String)
    (hno : ms.all (fun m => !(m.name == host)) = true) :
    saveCredsList ms host user pass
      = ms ++ [{ name := host, login := user, password := pass, account := "" }] := by
  unfold saveCredsList
  rw [findMachine_no_concrete ms host hno]
  cases hdef : ms.find? (fun m => m.isDefault) with
  | none => rfl
  | some d =>
    have hd : d.isDefault = true := List.find?_some hdef
    simp [hd]

/-- C2 witness: a store holding only a default record; upserting a host
appends the concrete record and the default keeps its login and password. -/
theorem saveCreds_appends_fresh_record_witness :
    saveCredsList [{ name := "", login := "dflt", password := "dp", account := "" }]
        "api.heroku.com" "u" "p"
      = [{ name := "", login := "dflt", password := "dp", account := "" },
         { name := "api.heroku.com", login := "u", password := "p", account := "" }] :=
  saveCreds_appends_fresh_record
    [{ name := "", login := "dflt", password := "dp", account := "" }]
    "api.heroku.com" "u" "p" (by decide)

/-- C3: when the URL has a non-empty host and carries embedded user-info,
`GetCreds` returns the login and password of the user-info (an absent
password reads as empty); the result does not depend on the store, which is
not consulted. -/
theorem getCreds_userinfo_precedence (ms : List Machine) (u : ApiURL) (ui : UserInfo)
    (hhost : (u.host == "") = false) (huser : u.user = some ui) :
    getCreds ms u = Except.ok (ui.username, ui.password.getD "")
    ∧ getCreds ms u = getCreds [] u := by
  unfold getCreds
  rw [hhost, huser]
  exact ⟨rfl, rfl⟩

/-- C3 witness: user-info in the URL wins over a conflicting store record
for the same host. -/
theorem getCreds_userinfo_precedence_witness :
    getCreds [{ name := "api.heroku.com", login := "fileu", password := "filep", account := "" }]
        { host := "api.heroku.com", user := some { username := "uriu", password := some "urip" } }
      = Except.ok ("uriu", "urip")
    ∧ getCreds [{ name := "api.heroku.com", login := "fileu", password := "filep", account := "" }]
        { host := "api.heroku.com", user := some { username := "uriu", password := some "urip" } }
      = getCreds []
        { host := "api.heroku.com", user := some { username := "uriu", password := some "urip" } } :=
  getCreds_userinfo_precedence
    [{ name := "api.heroku.com", login := "fileu", password := "filep", account := "" }]
    { host := "api.heroku.com", user := some { username := "uriu", password := some "urip" } }
    { username := "uriu", password := some "urip" } (by decide) rfl

/-- C4, counterexample: on an empty store, a URL with a non-empty host and
no user-info makes `GetCreds` return a successful result with empty login
and password, not a NotFound failure. -/
theorem getCreds_miss_counterexample :
    getCreds [] { host := "api.heroku.com", user := none } = Except.ok ("", "") := rfl

/-- C4 as amended: with a non-empty host, no embedded user-info and no
record matching the host in the store, `GetCreds` succeeds with empty
login and empty password (a nil error) instead of reporting a NotFound
failure. -/
theorem getCreds_miss_returns_empty (ms : List Machine) (u : ApiURL)
    (hhost : (u.host == "") = false) (huser : u.user = none)
    (hmiss : findMachine ms u.host = none) :
    getCreds ms u = Except.ok ("", "") := by
  unfold getCreds
  rw [hhost, huser, hmiss]
  simp

/-- C4 witness: concrete instance of the amended claim, on a store whose
only record names a different host. -/
theorem getCreds_miss_returns_empty_witness :
    getCreds [{ name := "other.example.com", login := "x", password := "y", account := "" }]
        { host := "api.heroku.com", user := none }
      = Except.ok ("", "") :=
  getCreds_miss_returns_empty
    [{ name := "other.example.com", login := "x", password := "y", account := "" }]
    { host := "api.heroku.com", user := none } (by decide) rfl (by decide)

/-! ## Claims C5-C10 -/

/-- C5: `app` obeys the precedence order explicit flag, then HKAPP
environment variable (returned verbatim, no remote translation), then git
remote inspection. -/
theorem app_precedence (flagApp hkapp : String) (remoteResult : Except GitError String) :
    (flagApp ≠ "" → app flagApp hkapp remoteResult = Except.ok flagApp)
    ∧ (flagApp = "" → hkapp ≠ "" → app flagApp hkapp remoteResult = Except.ok hkapp)
    ∧ (flagApp = "" → hkapp = "" → app flagApp hkapp remoteResult = remoteResult) := by
  refine ⟨fun h1 => ?_, fun h1 h2 => ?_, fun h1 h2 => ?_⟩
  · simp [app, h1]
  · simp [app, h1, h2]
  · simp [app, h1, h2]

/-- C5 witness: the three precedence levels at concrete inputs. -/
theorem app_precedence_witness :
    app "cliapp" "envapp" (Except.error GitError.multipleHerokuRemotes) = Except.ok "cliapp"
    ∧ app "" "envapp" (Except.error GitError.multipleHerokuRemotes) = Except.ok "envapp"
    ∧ app "" "" (Except.error GitError.multipleHerokuRemotes)
        = Except.error GitError.multipleHerokuRemotes :=
  ⟨(app_precedence "cliapp" "envapp" (Except.error GitError.multipleHerokuRemotes)).1
      (by decide),
   (app_precedence "" "envapp" (Except.error GitError.multipleHerokuRemotes)).2.1 rfl
      (by decide),
   (app_precedence "" "" (Except.error GitError.multipleHerokuRemotes)).2.2 rfl rfl⟩

/-- C6: a non-empty `-a` value is first offered to `appFromGitRemote`; a
successful translation is used, a failed one leaves the value literal. -/
theorem flagApp_remote_translation (flagApp : String)
    (afr : String → Except GitError String) (h : flagApp ≠ "") :
    (∀ g, afr flagApp = Except.ok g → translateFlagApp flagApp afr = g)
    ∧ (∀ e, afr flagApp = Except.error e → translateFlagApp flagApp afr = flagApp) := by
  constructor
  · intro g hg
    simp [translateFlagApp, h, hg]
  · intro e he
    simp [translateFlagApp, h, he]

/-- C6 witness: a remote name that translates is replaced by the app name;
a plain app name that does not translate is kept literally. -/
theorem flagApp_remote_translation_witness :
    translateFlagApp "heroku"
        (fun s => if s = "heroku" then Except.ok "myapp"
                  else Except.error (GitError.other "could not find app name in " ))
      = "myapp"
    ∧ translateFlagApp "plainapp"
        (fun s => if s = "heroku" then Except.ok "myapp"
                  else Except.error (GitError.other "could not find app name in " ))
      = "plainapp" :=
  ⟨(flagApp_remote_translation "heroku"
      (fun s => if s = "heroku" then Except.ok "myapp"
                else Except.error (GitError.other "could not find app name in " ))
      (by decide)).1 "myapp" (by simp),
   (flagApp_remote_translation "plainapp"
      (fun s => if s = "heroku" then Except.ok "myapp"
                else Except.error (GitError.other "could not find app name in " ))
      (by decide)).2 (GitError.other "could not find app name in " ) (by simp)⟩

/-- Helper: no branch of the app-context enforcement emits a plugin
event. -/
theorem appContextEvents_no_plugin (c : Command) (w : World) (fa : String)
    (pos : List String) :
    (appContextEvents c w fa pos).any isPluginEvent = false := by
  unfold appContextEvents
  cases happ : app fa w.hkapp (w.appFromGitRemote w.remoteFromGitConfig) with
  | ok a =>
    by_cases ha : a = ""
    · simp [ha, isPluginEvent]
    · simp [ha, isPluginEvent]
  | error e =>
    cases e with
    | multipleHerokuRemotes => simp [isPluginEvent]
    | other m => simp [isPluginEvent]

/-- Helper: no branch of `dispatchMatched` emits a plugin event. -/
theorem dispatchMatched_no_plugin (c : Command) (w : World) (rest : List String) :
    (dispatchMatched c w rest).any isPluginEvent = false := by
  unfold dispatchMatched
  cases hp : w.parse c rest with
  | none => simp [isPluginEvent]
  | some vp =>
    obtain ⟨v, pos⟩ := vp
    by_cases hn : c.needsApp
    · simp [hn, isPluginEvent,
        appContextEvents_no_plugin c w (translateFlagApp v w.appFromGitRemote) pos]
    · simp [hn, isPluginEvent]

/-- C7: a first argument that names a registered runnable command never
falls through to plugin resolution (no `findPlugin` lookup and no
`execPlugin`), whatever plugins exist on the search path. -/
theorem builtin_never_reaches_plugin (cmds : List Command) (updateName : String)
    (w : World) (arg0 : String) (rest : List String) (c : Command)
    (hmem : c ∈ cmds) (hname : c.name = arg0) (hrun : c.runnable = true) :
    reachesPlugin (mainTrace cmds updateName w (arg0 :: rest)) = false := by
  by_cases h1 : startsWithDash arg0
  · have ht : mainTrace cmds updateName w (arg0 :: rest)
        = [Event.printTopUsage, Event.exit 2] := by
      unfold mainTrace
      simp [h1]
    rw [ht]
    rfl
  · by_cases h2 : arg0 = updateName
    · subst h2
      have ht : mainTrace cmds arg0 w (arg0 :: rest)
          = [Event.runUpdate (arg0 :: rest)] := by
        unfold mainTrace
        simp [h1]
      rw [ht]
      rfl
    · cases hf : cmds.find? (fun d => d.name == arg0 && d.runnable) with
      | none =>
        exfalso
        have hall := List.find?_eq_none.mp hf c hmem
        simp [hname, hrun] at hall
      | some c2 =>
        have ht : mainTrace cmds updateName w (arg0 :: rest)
            = Event.initClients :: dispatchMatched c2 w rest := by
          unfold mainTrace
          simp [h1, h2, hf]
        unfold reachesPlugin
        rw [ht, List.any_cons]
        simp only [isPluginEvent, Bool.false_or]
        exact dispatchMatched_no_plugin c2 w rest

/-- C7 witness: dispatching `create` on the src sub-registry does not reach
plugin resolution even though the world offers a same-named plugin. -/
theorem builtin_never_reaches_plugin_witness :
    reachesPlugin (mainTrace srcCommands "update"
      { hkapp := "",
        remoteFromGitConfig := "heroku",
        appFromGitRemote := fun _ => Except.error (GitError.other "no remote"),
        parse := fun _ r => some ("", r),
        findPlugin := fun s => if s = "create" then some "/usr/local/lib/hk/plugin/create"
                               else none }
      ["create", "-r", "eu"]) = false :=
  builtin_never_reaches_plugin srcCommands "update"
    { hkapp := "",
      remoteFromGitConfig := "heroku",
      appFromGitRemote := fun _ => Except.error (GitError.other "no remote"),
      parse := fun _ r => some ("", r),
      findPlugin := fun s => if s = "create" then some "/usr/local/lib/hk/plugin/create"
                             else none }
    "create" ["-r", "eu"] cmdCreate (by decide) (by decide) rfl

/-- C8: when the matched command's flags fail to parse, the trace is
exactly client initialization, the parse attempt, the usage text and exit
code 2: no app-context resolution happens and no handler (hence no API
call) runs. -/
theorem parse_error_before_context (cmds : List Command) (updateName : String)
    (w : World) (arg0 : String) (rest : List String) (c : Command)
    (h1 : startsWithDash arg0 = false) (h2 : arg0 ≠ updateName)
    (h3 : cmds.find? (fun d => d.name == arg0 && d.runnable) = some c)
    (h4 : w.parse c rest = none) :
    mainTrace cmds updateName w (arg0 :: rest)
      = [Event.initClients, Event.parseFlags c.name, Event.printUsage c.name, Event.exit 2]
    ∧ resolvesAppContext (mainTrace cmds updateName w (arg0 :: rest)) = false
    ∧ invokesHandler (mainTrace cmds updateName w (arg0 :: rest)) = false := by
  have ht : mainTrace cmds updateName w (arg0 :: rest)
      = [Event.initClients, Event.parseFlags c.name, Event.printUsage c.name,
         Event.exit 2] := by
    unfold mainTrace dispatchMatched
    simp [h1, h2, h3, h4]
  refine ⟨ht, ?_, ?_⟩ <;> rw [ht] <;> rfl

/-- C8 witness: a malformed flag vector on the src sub-registry. -/
theorem parse_error_before_context_witness :
    mainTrace srcCommands "update"
      { hkapp := "",
        remoteFromGitConfig := "heroku",
        appFromGitRemote := fun _ => Except.error (GitError.other "no remote"),
        parse := fun _ _ => none,
        findPlugin := fun _ => none }
      ["releases", "-bogus"]
      = [Event.initClients, Event.parseFlags "releases", Event.printUsage "releases",
         Event.exit 2]
    ∧ resolvesAppContext (mainTrace srcCommands "update"
        { hkapp := "",
          remoteFromGitConfig := "heroku",
          appFromGitRemote := fun _ => Except.error (GitError.other "no remote"),
          parse := fun _ _ => none,
          findPlugin := fun _ => none }
        ["releases", "-bogus"]) = false
    ∧ invokesHandler (mainTrace srcCommands "update"
        { hkapp := "",
          remoteFromGitConfig := "heroku",
          appFromGitRemote := fun _ => Except.error (GitError.other "no remote"),
          parse := fun _ _ => none,
          findPlugin := fun _ => none }
        ["releases", "-bogus"]) = false :=
  parse_error_before_context srcCommands "update"
    { hkapp := "",
      remoteFromGitConfig := "heroku",
      appFromGitRemote := fun _ => Except.error (GitError.other "no remote"),
      parse := fun _ _ => none,
      findPlugin := fun _ => none }
    "releases" ["-bogus"] cmdReleases (by decide) (by decide) (by decide) rfl

/-- C9: for a matched command that needs app context, an empty resolution
result prints "no app specified" with the usage and exits 2; an ambiguous
result prints the multiple-apps message with the usage and exits 2; the two
messages are distinct; any other resolution error is fatal, not a usage
error. -/
theorem app_resolution_errors (cmds : List Command) (updateName : String)
    (w : World) (arg0 : String) (rest : List String) (c : Command)
    (v : String) (pos : List String)
    (h1 : startsWithDash arg0 = false) (h2 : arg0 ≠ updateName)
    (h3 : cmds.find? (fun d => d.name == arg0 && d.runnable) = some c)
    (h4 : c.needsApp = true)
    (h5 : w.parse c rest = some (v, pos)) :
    (app (translateFlagApp v w.appFromGitRemote) w.hkapp
        (w.appFromGitRemote w.remoteFromGitConfig) = Except.ok "" →
      mainTrace cmds updateName w (arg0 :: rest)
        = [Event.initClients, Event.parseFlags c.name, Event.resolveApp,
           Event.printError "no app specified", Event.printUsage c.name, Event.exit 2])
    ∧ (app (translateFlagApp v w.appFromGitRemote) w.hkapp
        (w.appFromGitRemote w.remoteFromGitConfig)
          = Except.error GitError.multipleHerokuRemotes →
      mainTrace cmds updateName w (arg0 :: rest)
        = [Event.initClients, Event.parseFlags c.name, Event.resolveApp,
           Event.printError (GitError.message GitError.multipleHerokuRemotes),
           Event.printUsage c.name, Event.exit 2])
    ∧ (∀ m, app (translateFlagApp v w.appFromGitRemote) w.hkapp
        (w.appFromGitRemote w.remoteFromGitConfig) = Except.error (GitError.other m) →
      mainTrace cmds updateName w (arg0 :: rest)
        = [Event.initClients, Event.parseFlags c.name, Event.resolveApp,
           Event.printFatal m])
    ∧ GitError.message GitError.multipleHerokuRemotes ≠ "no app specified" := by
  refine ⟨fun hr => ?_, fun hr => ?_, fun m hr => ?_, by decide⟩ <;>
    · unfold mainTrace dispatchMatched
      simp [appContextEvents, h1, h2, h3, h4, h5, hr]

/-- C9 witness: the three resolution outcomes at concrete worlds, applying
the theorem once per outcome. -/
theorem app_resolution_errors_witness :
    mainTrace srcCommands "update"
      { hkapp := "",
        remoteFromGitConfig := "heroku",
        appFromGitRemote := fun _ => Except.ok "",
        parse := fun _ _ => some ("", []),
        findPlugin := fun _ => none }
      ["releases"]
      = [Event.initClients, Event.parseFlags "releases", Event.resolveApp,
         Event.printError "no app specified", Event.printUsage "releases", Event.exit 2]
    ∧ mainTrace srcCommands "update"
      { hkapp := "",
        remoteFromGitConfig := "heroku",
        appFromGitRemote := fun _ => Except.error GitError.multipleHerokuRemotes,
        parse := fun _ _ => some ("", []),
        findPlugin := fun _ => none }
      ["releases"]
      = [Event.initClients, Event.parseFlags "releases", Event.resolveApp,
         Event.printError (GitError.message GitError.multipleHerokuRemotes),
         Event.printUsage "releases", Event.exit 2]
    ∧ mainTrace srcCommands "update"
      { hkapp := "",
        remoteFromGitConfig := "heroku",
        appFromGitRemote := fun _ => Except.error (GitError.other "git exec error"),
        parse := fun _ _ => some ("", []),
        findPlugin := fun _ => none }
      ["releases"]
      = [Event.initClients, Event.parseFlags "releases", Event.resolveApp,
         Event.printFatal "git exec error"] :=
  ⟨(app_resolution_errors srcCommands "update"
      { hkapp := "",
        remoteFromGitConfig := "heroku",
        appFromGitRemote := fun _ => Except.ok "",
        parse := fun _ _ => some ("", []),
        findPlugin := fun _ => none }
      "releases" [] cmdReleases "" [] (by decide) (by decide) (by decide) rfl rfl).1 rfl,
   (app_resolution_errors srcCommands "update"
      { hkapp := "",
        remoteFromGitConfig := "heroku",
        appFromGitRemote := fun _ => Except.error GitError.multipleHerokuRemotes,
        parse := fun _ _ => some ("", []),
        findPlugin := fun _ => none }
      "releases" [] cmdReleases "" [] (by decide) (by decide) (by decide) rfl rfl).2.1 rfl,
   (app_resolution_errors srcCommands "update"
      { hkapp := "",
        remoteFromGitConfig := "heroku",
        appFromGitRemote := fun _ => Except.error (GitError.other "git exec error"),
        parse := fun _ _ => some ("", []),
        findPlugin := fun _ => none }
      "releases" [] cmdReleases "" [] (by decide) (by decide) (by decide) rfl
      rfl).2.2.1 "git exec error" rfl⟩

/-- C10: a first argument equal to the update command's name makes `main`
run the update handler on the raw argument vector and return: clients are
never initialized (so the credential store is not loaded), no flag parsing
happens in the dispatch loop, no app context is resolved and no plugin
path is tried. -/
theorem update_bypasses_pipeline (cmds : List Command) (updateName : String)
    (w : World) (rest : List String)
    (h : startsWithDash updateName = false) :
    mainTrace cmds updateName w (updateName :: rest)
      = [Event.runUpdate (updateName :: rest)]
    ∧ initsClients (mainTrace cmds updateName w (updateName :: rest)) = false
    ∧ parsesFlags (mainTrace cmds updateName w (updateName :: rest)) = false
    ∧ resolvesAppContext (mainTrace cmds updateName w (updateName :: rest)) = false
    ∧ reachesPlugin (mainTrace cmds updateName w (updateName :: rest)) = false := by
  have ht : mainTrace cmds updateName w (updateName :: rest)
      = [Event.runUpdate (updateName :: rest)] := by
    unfold mainTrace
    simp [h]
  refine ⟨ht, ?_, ?_, ?_, ?_⟩ <;> rw [ht] <;> rfl

/-- C10 witness: `update` with an extra argument on a world that could
parse flags and find plugins. -/
theorem update_bypasses_pipeline_witness :
    mainTrace srcCommands "update"
      { hkapp := "envapp",
        remoteFromGitConfig := "heroku",
        appFromGitRemote := fun _ => Except.ok "remoteapp",
        parse := fun _ r => some ("", r),
        findPlugin := fun _ => some "/usr/local/lib/hk/plugin/update" }
      ["update", "-v"]
      = [Event.runUpdate ["update", "-v"]]
    ∧ initsClients (mainTrace srcCommands "update"
        { hkapp := "envapp",
          remoteFromGitConfig := "heroku",
          appFromGitRemote := fun _ => Except.ok "remoteapp",
          parse := fun _ r => some ("", r),
          findPlugin := fun _ => some "/usr/local/lib/hk/plugin/update" }
        ["update", "-v"]) = false
    ∧ parsesFlags (mainTrace srcCommands "update"
        { hkapp := "envapp",
          remoteFromGitConfig := "heroku",
          appFromGitRemote := fun _ => Except.ok "remoteapp",
          parse := fun _ r => some ("", r),
          findPlugin := fun _ => some "/usr/local/lib/hk/plugin/update" }
        ["update", "-v"]) = false
    ∧ resolvesAppContext (mainTrace srcCommands "update"
        { hkapp := "envapp",
          remoteFromGitConfig := "heroku",
          appFromGitRemote := fun _ => Except.ok "remoteapp",
          parse := fun _ r => some ("", r),
          findPlugin := fun _ => some "/usr/local/lib/hk/plugin/update" }
        ["update", "-v"]) = false
    ∧ reachesPlugin (mainTrace srcCommands "update"
        { hkapp := "envapp",
          remoteFromGitConfig := "heroku",
          appFromGitRemote := fun _ => Except.ok "remoteapp",
          parse := fun _ r => some ("", r),
          findPlugin := fun _ => some "/usr/local/lib/hk/plugin/update" }
        ["update", "-v"]) = false :=
  update_bypasses_pipeline srcCommands "update"
    { hkapp := "envapp",
      remoteFromGitConfig := "heroku",
      appFromGitRemote := fun _ => Except.ok "remoteapp",
      parse := fun _ r => some ("", r),
      findPlugin := fun _ => some "/usr/local/lib/hk/plugin/update" }
    ["-v"] (by decide)

end Hk
